import Mathlib

/-
Verification of the position/move-annotation synchronization module
(static/pychess.js): the escapeHtml sanitizer, the Position class
(update, setMoves, addMove, deleteMove), the onDrop handler policy,
and the JSON save payload.

The move catalog is a JS object keyed by move strings; it is modelled
as an association list, which captures key uniqueness and insertion
order (JS orders integer-like keys first, but move identifiers in
standard short notation are never integer-like). Network round trips
are modelled in two phases: an issue phase (the synchronous code up to
and including the fetch call, returning the mutated session and the
request) and a success phase (the then-callback applied to the decoded
response). On a failed round trip no callback runs, so the state after
failure is exactly the issue-phase state.
-/

/-- The double-quote character. -/
def quoteChar : Char := Char.ofNat 34

/-- The apostrophe character. -/
def aposChar : Char := Char.ofNat 39

/-- One pass of single-character replacement over a list of characters:
each occurrence of c is replaced by the list r, as the JS replaceAll
method does for a one-character pattern. -/
def replaceAllCharL (c : Char) (r : List Char) : List Char → List Char
  | [] => []
  | a :: l => (if a = c then r else [a]) ++ replaceAllCharL c r l

/-- String form of replaceAllCharL, mirroring s.replaceAll(c, r). -/
def replaceAllChar (s : String) (c : Char) (r : String) : String :=
  ⟨replaceAllCharL c r.data s.data⟩

/-- escapeHtml from the source: five sequential replaceAll passes, in
source order: ampersand, less-than, greater-than, double quote,
apostrophe. -/
def escapeHtml (s : String) : String :=
  replaceAllChar
    (replaceAllChar
      (replaceAllChar
        (replaceAllChar
          (replaceAllChar s '&' "&amp;")
          '<' "&lt;")
        '>' "&gt;")
      quoteChar "&quot;")
    aposChar "&#039;"

/-- Per-character entity replacement, the reading of the spec sentence
that each of the five markup-significant characters is replaced by its
HTML entity. -/
def escChar (a : Char) : String :=
  if a = '&' then "&amp;"
  else if a = '<' then "&lt;"
  else if a = '>' then "&gt;"
  else if a = quoteChar then "&quot;"
  else if a = aposChar then "&#039;"
  else String.singleton a

/-- escChar mapped over a character list. -/
def escL : List Char → List Char
  | [] => []
  | a :: l => (escChar a).data ++ escL l

/-- Spec-side sanitizer: escChar applied independently to every
character of the input. Compared with escapeHtml below. -/
def escapeHtmlSpec (s : String) : String :=
  ⟨escL s.data⟩

/-- One value of the move catalog: the optional rate and optional
comment fields of a catalog entry object. -/
structure MoveAnn where
  rate : Option Int
  comment : Option String
deriving DecidableEq, Repr

/-- The move catalog: a JS object from move identifiers to entries,
modelled as an association list in insertion order. -/
abbrev Catalog := List (String × MoveAnn)

/-- Key lookup in the catalog. -/
def lookupMove : Catalog → String → Option MoveAnn
  | [], _ => none
  | (k, v) :: rest, key => if k = key then some v else lookupMove rest key

/-- The JS in operator on the catalog: key presence. -/
def containsKey (cat : Catalog) (key : String) : Bool :=
  (lookupMove cat key).isSome

/-- JS object assignment cat[key] = v: replaces the value of an
existing key in place, otherwise appends the new key at the end. -/
def setEntry : Catalog → String → MoveAnn → Catalog
  | [], key, v => [(key, v)]
  | (k, w) :: rest, key, v =>
      if k = key then (key, v) :: rest else (k, w) :: setEntry rest key v

/-- JS delete cat[key]: removes the key if present, no-op otherwise. -/
def removeEntry : Catalog → String → Catalog
  | [], _ => []
  | (k, w) :: rest, key =>
      if k = key then removeEntry rest key else (k, w) :: removeEntry rest key

/-- The local mutation performed by addMove: the entry is replaced by a
fresh object, the rate field is set when the rate argument is not null,
and the comment field is set when the comment argument is truthy, that
is, non-empty. -/
def addMoveLocal (cat : Catalog) (move : String) (rate : Option Int)
    (comment : String) : Catalog :=
  setEntry cat move ⟨rate, if comment = "" then none else some comment⟩

/-- Style classification of setMoves: unrated-move unless the rate
field is present, then best-move for positive, mistake-move for
negative, playable-move otherwise. -/
def moveClass (v : MoveAnn) : String :=
  match v.rate with
  | none => "unrated-move"
  | some r => if r > 0 then "best-move" else if r < 0 then "mistake-move"
              else "playable-move"

/-- Split of a character list at every occurrence of c, as the JS
split method does for a one-character separator: the empty list splits
to one empty piece, and a separator at either end yields an empty
piece there. -/
def splitOnCharL (c : Char) : List Char → List (List Char)
  | [] => [[]]
  | a :: l =>
      if a = c then [] :: splitOnCharL c l
      else
        match splitOnCharL c l with
        | [] => [[a]]
        | h :: t => (a :: h) :: t

/-- String split on the newline character. -/
def splitNl (s : String) : List String :=
  (splitOnCharL '\n' s.data).map String.mk

/-- Comment rendering of setMoves: the comment field, defaulted to the
empty string, split on newline characters, each line escaped, rejoined
with a br tag. -/
def renderComment (c : Option String) : String :=
  String.intercalate "<br>" ((splitNl (c.getD "")).map escapeHtml)

/-- One dt/dd row of the rendered move list, at a given tab index. The
key is interpolated verbatim; only the comment goes through
escapeHtml. -/
def renderRow (tabIndex : Nat) (k : String) (v : MoveAnn) : String :=
  "<dt><span tabindex=\"" ++ toString tabIndex ++ "\" class=\"move "
    ++ moveClass v ++ "\">" ++ k ++ "</span></dt><dd>"
    ++ renderComment v.comment ++ "</dd>"

/-- The rows of the rendered list, tab indices counting up from the
given start. -/
def renderRows : Nat → Catalog → String
  | _, [] => ""
  | i, (k, v) :: rest => renderRow i k v ++ renderRows (i + 1) rest

/-- The full innerHTML string produced by setMoves: a dl element whose
rows are the catalog entries in catalog order, tab indices from 1. -/
def renderMoves (cat : Catalog) : String :=
  "<dl>" ++ renderRows 1 cat ++ "</dl>"

/-- Hexadecimal digit character, lowercase. -/
def hexDigit (n : Nat) : Char :=
  Char.ofNat (if n < 10 then 48 + n else 87 + n)

/-- JSON string escaping of one character, as JSON.stringify performs
it: backslash escapes for the quote, the backslash and the common
control characters, u-escapes for the remaining control characters. -/
def jsonEscapeChar (a : Char) : String :=
  if a = quoteChar then "\\\""
  else if a = '\\' then "\\\\"
  else if a = '\x08' then "\\b"
  else if a = '\x09' then "\\t"
  else if a = '\x0a' then "\\n"
  else if a = '\x0c' then "\\f"
  else if a = '\x0d' then "\\r"
  else if a.toNat < 32 then
    "\\u00" ++ String.singleton (hexDigit (a.toNat / 16))
      ++ String.singleton (hexDigit (a.toNat % 16))
  else String.singleton a

/-- A JSON string literal for s. -/
def jsonString (s : String) : String :=
  "\"" ++ String.join (s.data.map jsonEscapeChar) ++ "\""

/-- JSON.stringify of one catalog entry value. Field order follows the
assignment order in addMove: rate first, then comment; absent fields
are omitted entirely. -/
def jsonOfAnn (v : MoveAnn) : String :=
  "\x7b" ++ String.intercalate ","
    ((match v.rate with
      | some r => ["\"rate\":" ++ toString r]
      | none => [])
     ++ (match v.comment with
      | some c => ["\"comment\":" ++ jsonString c]
      | none => []))
  ++ "\x7d"

/-- JSON.stringify of the whole catalog, in catalog order: this is the
save request body. -/
def jsonOfCatalog (cat : Catalog) : String :=
  "\x7b" ++ String.intercalate ","
    (cat.map (fun e => jsonString e.1 ++ ":" ++ jsonOfAnn e.2))
  ++ "\x7d"

/-- The save request issued by addMove and deleteMove: the URL carries
the record id, the body is the stringified catalog. -/
structure SaveRequest where
  url : String
  payload : String
deriving DecidableEq, Repr

/-- The fetch request issued by update. -/
structure FetchRequest where
  url : String
deriving DecidableEq, Repr

/-- The Position session state: the record id (unset until the first
fetch resolves, rendered as the string undefined in a URL), the
in-memory move catalog, the innerHTML of the moves element, and the
position string last pushed to the board widget. -/
structure Session where
  id : Option Int
  moves : Catalog
  displayed : String
  boardPos : String
deriving DecidableEq, Repr

/-- The string a JS template literal produces for the record id:
undefined when the id is still unset. -/
def idString : Option Int → String
  | none => "undefined"
  | some n => toString n

namespace Position

/-- setMoves: stores the given catalog as the in-memory catalog and
replaces the displayed list wholesale with its rendering. -/
def setMoves (s : Session) (moves : Catalog) : Session :=
  { s with moves := moves, displayed := renderMoves moves }

/-- Issue phase of update: pushes the position string to the board
synchronously and issues the fetch request. The catalog and the
display are untouched until the response arrives. -/
def update (s : Session) (fen : String) : Session × FetchRequest :=
  ({ s with boardPos := fen }, ⟨"/api/position/fen/" ++ fen⟩)

/-- Success phase of update: stores the id from the response and
applies setMoves to the returned catalog. -/
def updateSuccess (s : Session) (id : Int) (moves : Catalog) : Session :=
  setMoves { s with id := some id } moves

/-- Issue phase of addMove: mutates the in-memory catalog first, then
issues the save with the full mutated catalog, using whatever id the
session currently holds. The display is untouched. -/
def addMove (s : Session) (move : String) (rate : Option Int)
    (comment : String) : Session × SaveRequest :=
  let moves := addMoveLocal s.moves move rate comment
  ({ s with moves := moves },
   ⟨"/api/position/save/" ++ idString s.id, jsonOfCatalog moves⟩)

/-- Success phase of addMove and deleteMove: setMoves applied to the
catalog returned by the store. -/
def saveSuccess (s : Session) (moves : Catalog) : Session :=
  setMoves s moves

/-- Issue phase of deleteMove: removes the key from the in-memory
catalog, then issues the save with the full mutated catalog. -/
def deleteMove (s : Session) (move : String) : Session × SaveRequest :=
  let moves := removeEntry s.moves move
  ({ s with moves := moves },
   ⟨"/api/position/save/" ++ idString s.id, jsonOfCatalog moves⟩)

end Position

/-- The onDrop handler, after the legality oracle has answered: a null
move snaps back and touches nothing; a legal move whose short notation
is already a key of the catalog is played without any addMove call and
without any save; otherwise addMove is called with default rate and
comment. -/
def onDrop (s : Session) (moveResult : Option String) :
    Session × Option SaveRequest :=
  match moveResult with
  | none => (s, none)
  | some san =>
      if containsKey s.moves san then (s, none)
      else
        let p := Position.addMove s san none ""
        (p.1, some p.2)

/-! ### Helper lemmas -/

lemma replaceAllCharL_append (c : Char) (r : List Char) (l1 l2 : List Char) :
    replaceAllCharL c r (l1 ++ l2)
      = replaceAllCharL c r l1 ++ replaceAllCharL c r l2 := by
  induction l1 with
  | nil => rfl
  | cons a l ih => simp [replaceAllCharL, ih]

/-- The five replacement passes of escapeHtml, on character lists. -/
def escStackL (l : List Char) : List Char :=
  replaceAllCharL aposChar "&#039;".data
    (replaceAllCharL quoteChar "&quot;".data
      (replaceAllCharL '>' "&gt;".data
        (replaceAllCharL '<' "&lt;".data
          (replaceAllCharL '&' "&amp;".data l))))

lemma escapeHtml_eq_stack (s : String) : escapeHtml s = ⟨escStackL s.data⟩ := rfl

lemma escStackL_append (l1 l2 : List Char) :
    escStackL (l1 ++ l2) = escStackL l1 ++ escStackL l2 := by
  simp [escStackL, replaceAllCharL_append]

lemma escStackL_single (a : Char) : escStackL [a] = (escChar a).data := by
  by_cases h1 : a = '&'
  · subst h1; decide
  by_cases h2 : a = '<'
  · subst h2; decide
  by_cases h3 : a = '>'
  · subst h3; decide
  by_cases h4 : a = quoteChar
  · subst h4; decide
  by_cases h5 : a = aposChar
  · subst h5; decide
  simp [escStackL, replaceAllCharL, escChar, h1, h2, h3, h4, h5,
    String.singleton]

lemma escStackL_eq_escL (l : List Char) : escStackL l = escL l := by
  induction l with
  | nil => rfl
  | cons a l ih =>
      have h : a :: l = [a] ++ l := rfl
      rw [h, escStackL_append, escStackL_single, ih]
      rfl

lemma escapeHtml_eq_escapeHtmlSpec (s : String) :
    escapeHtml s = escapeHtmlSpec s := by
  rw [escapeHtml_eq_stack]
  exact congrArg String.mk (escStackL_eq_escL s.data)

lemma escChar_no_markup (a : Char) :
    ∀ ch ∈ (escChar a).data,
      ch ≠ '<' ∧ ch ≠ '>' ∧ ch ≠ quoteChar ∧ ch ≠ aposChar := by
  by_cases h1 : a = '&'
  · subst h1; decide
  by_cases h2 : a = '<'
  · subst h2; decide
  by_cases h3 : a = '>'
  · subst h3; decide
  by_cases h4 : a = quoteChar
  · subst h4; decide
  by_cases h5 : a = aposChar
  · subst h5; decide
  intro ch hch
  simp [escChar, h1, h2, h3, h4, h5, String.singleton] at hch
  subst hch
  exact ⟨h2, h3, h4, h5⟩

lemma escL_no_markup (l : List Char) :
    ∀ ch ∈ escL l,
      ch ≠ '<' ∧ ch ≠ '>' ∧ ch ≠ quoteChar ∧ ch ≠ aposChar := by
  induction l with
  | nil => intro ch hch; cases hch
  | cons a l ih =>
      intro ch hch
      rcases List.mem_append.mp hch with h | h
      · exact escChar_no_markup a ch h
      · exact ih ch h

lemma escapeHtml_no_markup (s : String) :
    ∀ ch ∈ (escapeHtml s).data,
      ch ≠ '<' ∧ ch ≠ '>' ∧ ch ≠ quoteChar ∧ ch ≠ aposChar := by
  rw [escapeHtml_eq_escapeHtmlSpec]
  exact escL_no_markup s.data

lemma lookupMove_setEntry_self (cat : Catalog) (key : String) (v : MoveAnn) :
    lookupMove (setEntry cat key v) key = some v := by
  induction cat with
  | nil => simp [setEntry, lookupMove]
  | cons e rest ih =>
      obtain ⟨k, w⟩ := e
      by_cases h : k = key
      · simp [setEntry, lookupMove, h]
      · simp [setEntry, lookupMove, h, ih]

lemma setEntry_setEntry_same (cat : Catalog) (key : String) (v : MoveAnn) :
    setEntry (setEntry cat key v) key v = setEntry cat key v := by
  induction cat with
  | nil => simp [setEntry]
  | cons e rest ih =>
      obtain ⟨k, w⟩ := e
      by_cases h : k = key
      · simp [setEntry, h]
      · simp [setEntry, h, ih]

lemma removeEntry_of_not_containsKey (cat : Catalog) (key : String)
    (h : containsKey cat key = false) : removeEntry cat key = cat := by
  induction cat with
  | nil => rfl
  | cons e rest ih =>
      obtain ⟨k, w⟩ := e
      by_cases hk : k = key
      · exfalso
        simp [containsKey, lookupMove, hk] at h
      · simp only [containsKey, lookupMove, hk, if_neg hk] at h ⊢
        simp [removeEntry, hk, ih h]

/-! ### Claim theorems -/

/-- C1: setMoves renders a comment by splitting it on newline,
escaping every line and rejoining with a br tag; escapeHtml agrees
with the independent per-character entity map, so the five
markup-significant characters are each replaced by their HTML entity
and none of less-than, greater-than, double quote or apostrophe
survives in escaped output; a comment consisting of a b-tagged x
renders as its entity-escaped literal text, and an absent comment
renders as the empty string. -/
theorem c1_comment_escaping :
    (∀ s : String, escapeHtml s = escapeHtmlSpec s)
    ∧ (∀ s : String, ∀ ch ∈ (escapeHtml s).data,
        ch ≠ '<' ∧ ch ≠ '>' ∧ ch ≠ quoteChar ∧ ch ≠ aposChar)
    ∧ (∀ c : String, renderComment (some c)
        = String.intercalate "<br>" ((splitNl c).map escapeHtml))
    ∧ renderComment (some "<b>x</b>") = "&lt;b&gt;x&lt;/b&gt;"
    ∧ renderComment none = "" :=
  ⟨escapeHtml_eq_escapeHtmlSpec, escapeHtml_no_markup,
   fun _ => rfl, by decide, rfl⟩

/-- C1 witness: the character b occurs in the escaped output of the
b-tagged comment and is none of the markup-significant characters. -/
theorem c1_witness :
    ('b' ∈ (escapeHtml "<b>x</b>").data)
    ∧ ('b' ≠ '<' ∧ 'b' ≠ '>' ∧ 'b' ≠ quoteChar ∧ 'b' ≠ aposChar) :=
  ⟨by decide, c1_comment_escaping.2.1 "<b>x</b>" 'b' (by decide)⟩

/-- C2: the style classification depends only on the presence and sign
of the rate field: any positive rate classifies best-move, any
negative rate classifies mistake-move, rate zero classifies
playable-move, and an absent rate classifies unrated-move, regardless
of the comment. -/
theorem c2_rate_classification :
    (∀ (r : Int) (c : Option String), 0 < r →
        moveClass ⟨some r, c⟩ = "best-move")
    ∧ (∀ (r : Int) (c : Option String), r < 0 →
        moveClass ⟨some r, c⟩ = "mistake-move")
    ∧ (∀ c : Option String, moveClass ⟨some 0, c⟩ = "playable-move")
    ∧ (∀ c : Option String, moveClass ⟨none, c⟩ = "unrated-move") := by
  refine ⟨fun r c h => ?_, fun r c h => ?_, fun c => rfl, fun c => rfl⟩
  · simp [moveClass, h]
  · have h2 : ¬ r > 0 := by omega
    simp [moveClass, h, h2]

/-- C2 witness: rate five and rate one classify identically as
best-move, rate minus five and rate minus one identically as
mistake-move. -/
theorem c2_witness :
    moveClass ⟨some 5, none⟩ = "best-move"
    ∧ moveClass ⟨some 1, none⟩ = "best-move"
    ∧ moveClass ⟨some (-5), none⟩ = "mistake-move"
    ∧ moveClass ⟨some (-1), none⟩ = "mistake-move" :=
  ⟨c2_rate_classification.1 5 none (by decide),
   c2_rate_classification.1 1 none (by decide),
   c2_rate_classification.2.1 (-5) none (by decide),
   c2_rate_classification.2.1 (-1) none (by decide)⟩

/-- A session synced to an empty catalog, used as the concrete state
for the failure counterexample. -/
def s0ex : Session := ⟨some 1, [], renderMoves [], "start"⟩

/-- C3 counterexample: after addMove issues its save and the save
fails, no callback runs, so the post-failure state is the issue-phase
state; its in-memory catalog holds the optimistic mutation and is NOT
equal to the catalog of the previously displayed state, refuting the
claim that both the in-memory catalog and the displayed state equal
the previously displayed state. -/
theorem c3_counterexample :
    ¬ ((Position.addMove s0ex "e4" none "").1.moves = s0ex.moves
       ∧ (Position.addMove s0ex "e4" none "").1.displayed = s0ex.displayed) :=
  by decide

/-- C3 amended: on a failed round trip no response callback runs, so
the displayed state after the failure equals the previously displayed
state for update, addMove and deleteMove alike, and update leaves the
in-memory catalog unchanged as well; addMove and deleteMove, however,
mutate the in-memory catalog before issuing the save, so after a
failed save the in-memory catalog holds the optimistically mutated
catalog rather than the previously displayed one. -/
theorem c3_failure_frame (s : Session) (fen move comment m : String)
    (rate : Option Int) :
    ((Position.update s fen).1.moves = s.moves
      ∧ (Position.update s fen).1.displayed = s.displayed)
    ∧ ((Position.addMove s move rate comment).1.displayed = s.displayed
      ∧ (Position.addMove s move rate comment).1.moves
          = addMoveLocal s.moves move rate comment)
    ∧ ((Position.deleteMove s m).1.displayed = s.displayed
      ∧ (Position.deleteMove s m).1.moves = removeEntry s.moves m) :=
  ⟨⟨rfl, rfl⟩, ⟨rfl, rfl⟩, ⟨rfl, rfl⟩⟩

/-- C4: the local mutation of addMove is idempotent: applying it twice
with the same move, rate and comment yields the same catalog, with the
same keys, entry contents and insertion order, as applying it once. -/
theorem c4_addMove_idempotent (cat : Catalog) (move : String)
    (rate : Option Int) (comment : String) :
    addMoveLocal (addMoveLocal cat move rate comment) move rate comment
      = addMoveLocal cat move rate comment :=
  setEntry_setEntry_same cat move _

/-- C5: deleteMove on a move that is not a key of the catalog leaves
the catalog unchanged and issues the save with a body equal to the
stringified unchanged catalog, at the current record id; being a total
function, it raises no fault. -/
theorem c5_delete_absent_noop (s : Session) (move : String)
    (h : containsKey s.moves move = false) :
    (Position.deleteMove s move).1.moves = s.moves
    ∧ (Position.deleteMove s move).2.payload = jsonOfCatalog s.moves
    ∧ (Position.deleteMove s move).2.url
        = "/api/position/save/" ++ idString s.id := by
  have he := removeEntry_of_not_containsKey s.moves move h
  exact ⟨he, congrArg jsonOfCatalog he, rfl⟩

/-- C5 witness: deleting d4 from a catalog holding only e4 leaves the
catalog unchanged. -/
theorem c5_witness :
    containsKey ([("e4", ⟨some 1, none⟩)] : Catalog) "d4" = false
    ∧ (Position.deleteMove ⟨some 1, [("e4", ⟨some 1, none⟩)], "", ""⟩
        "d4").1.moves = [("e4", ⟨some 1, none⟩)] :=
  ⟨by decide,
   (c5_delete_absent_noop ⟨some 1, [("e4", ⟨some 1, none⟩)], "", ""⟩ "d4"
     (by decide)).1⟩

/-- The starting position string of the C6 scenario. -/
def fen6 : String := "rnbqkbnr/pppppppp/8/8/8/8/PPPPPPPP/RNBQKBNR w KQkq - 0 1"

/-- A session freshly fetched for fen6 with record id 1 and an empty
catalog. -/
def s6 : Session := Position.updateSuccess ⟨none, [], "", fen6⟩ 1 []

/-- C6: from a freshly fetched record with id 1 and an empty catalog,
addMove with move e4, rate 1 and comment main line issues a save to
the id-1 URL whose body is exactly the JSON object mapping e4 to rate
1 and comment main line, and on success (the store echoing the saved
catalog) the displayed catalog holds exactly one entry, labeled e4 and
classified best-move. -/
theorem c6_scenario :
    (Position.addMove s6 "e4" (some 1) "main line").2.payload
        = "\x7b\"e4\":\x7b\"rate\":1,\"comment\":\"main line\"\x7d\x7d"
    ∧ (Position.addMove s6 "e4" (some 1) "main line").2.url
        = "/api/position/save/1"
    ∧ (Position.saveSuccess (Position.addMove s6 "e4" (some 1) "main line").1
        ((Position.addMove s6 "e4" (some 1) "main line").1.moves)).moves
        = [("e4", ⟨some 1, some "main line"⟩)]
    ∧ moveClass ⟨some 1, some "main line"⟩ = "best-move"
    ∧ (Position.saveSuccess (Position.addMove s6 "e4" (some 1) "main line").1
        ((Position.addMove s6 "e4" (some 1) "main line").1.moves)).displayed
        = renderMoves [("e4", ⟨some 1, some "main line"⟩)] :=
  ⟨by decide, by decide, by decide, by decide, by decide⟩

/-- C7: the entry the local mutation of addMove creates carries the
rate field exactly when the rate argument is not null and the comment
field exactly when the comment argument is non-empty; with neither, it
is the empty annotation entry; and the issued save carries the
stringified full mutated catalog as its body. -/
theorem c7_entry_fields (s : Session) (move : String) (rate : Option Int)
    (comment : String) :
    lookupMove (Position.addMove s move rate comment).1.moves move
        = some ⟨rate, if comment = "" then none else some comment⟩
    ∧ (rate = none → comment = "" →
        lookupMove (Position.addMove s move rate comment).1.moves move
          = some ⟨none, none⟩)
    ∧ (Position.addMove s move rate comment).2.payload
        = jsonOfCatalog (addMoveLocal s.moves move rate comment) := by
  have h := lookupMove_setEntry_self s.moves move
      ⟨rate, if comment = "" then none else some comment⟩
  refine ⟨h, ?_, rfl⟩
  intro hr hc
  subst hr
  subst hc
  simpa using h

/-- C7 witness: a move added with null rate and empty comment becomes
the empty annotation entry. -/
theorem c7_witness :
    lookupMove (Position.addMove ⟨some 1, [], "", ""⟩ "e4" none "").1.moves
      "e4" = some ⟨none, none⟩ :=
  (c7_entry_fields ⟨some 1, [], "", ""⟩ "e4" none "").2.1 rfl rfl

/-- C8: when the played move is already a key of the catalog, the drop
handler calls no addMove and issues no save: the session, and in
particular the existing entry for that key, is unchanged. -/
theorem c8_existing_move_no_save (s : Session) (san : String)
    (h : containsKey s.moves san = true) :
    onDrop s (some san) = (s, none)
    ∧ lookupMove (onDrop s (some san)).1.moves san
        = lookupMove s.moves san := by
  have he : onDrop s (some san) = (s, none) := by simp [onDrop, h]
  exact ⟨he, by rw [he]⟩

/-- C8 witness: replaying e4 over a catalog already holding a rated,
commented e4 entry changes nothing and issues no save. -/
theorem c8_witness :
    containsKey ([("e4", ⟨some 2, some "y"⟩)] : Catalog) "e4" = true
    ∧ onDrop ⟨some 1, [("e4", ⟨some 2, some "y"⟩)], "", ""⟩ (some "e4")
        = (⟨some 1, [("e4", ⟨some 2, some "y"⟩)], "", ""⟩, none) :=
  ⟨by decide,
   (c8_existing_move_no_save ⟨some 1, [("e4", ⟨some 2, some "y"⟩)], "", ""⟩
     "e4" (by decide)).1⟩

/-- C9: the rendered row interpolates the catalog key verbatim, with
no escaping, while the comment of the same entry goes through
escapeHtml: on a key containing a less-than character the generated
structure contains that character unescaped, unlike the comment. -/
theorem c9_key_unescaped :
    (∀ (i : Nat) (k : String) (v : MoveAnn),
      renderRow i k v
        = "<dt><span tabindex=\"" ++ toString i ++ "\" class=\"move "
          ++ moveClass v ++ "\">" ++ k ++ "</span></dt><dd>"
          ++ renderComment v.comment ++ "</dd>")
    ∧ renderMoves [("a<b", ⟨none, some "a<b"⟩)]
        = "<dl><dt><span tabindex=\"1\" class=\"move unrated-move\">a<b</span></dt><dd>a&lt;b</dd></dl>"
    ∧ escapeHtml "a<b" = "a&lt;b" :=
  ⟨fun _ _ _ => rfl, by decide, by decide⟩

/-- C10: addMove and deleteMove always issue the save immediately at
the URL built from whatever record id the session currently holds;
before the first fetch has resolved the id is unset and the URL ends
in the string undefined, rather than the save being deferred, queued
or rejected. -/
theorem c10_save_uses_current_id (s : Session) (move : String)
    (rate : Option Int) (comment m : String) :
    (Position.addMove s move rate comment).2.url
        = "/api/position/save/" ++ idString s.id
    ∧ (Position.deleteMove s m).2.url = "/api/position/save/" ++ idString s.id
    ∧ (s.id = none →
        (Position.addMove s move rate comment).2.url
            = "/api/position/save/undefined"
        ∧ (Position.deleteMove s m).2.url
            = "/api/position/save/undefined") := by
  refine ⟨rfl, rfl, fun h => ?_⟩
  constructor <;> simp [Position.addMove, Position.deleteMove, h, idString]

/-- C10 witness: with the id still unset, addMove issues its save at
the undefined URL. -/
theorem c10_witness :
    (Position.addMove ⟨none, [], "", ""⟩ "e4" none "").2.url
      = "/api/position/save/undefined" :=
  ((c10_save_uses_current_id ⟨none, [], "", ""⟩ "e4" none "" "d4").2.2 rfl).1
